import Mathlib

/-
Verification of the Onboardly dashboard's client-side logic
(src/pages/Dashboard.jsx) against its natural-language specification.

Shallow embedding conventions:
- Backend timestamps are modelled by their calendar-day index (an Int):
  the code only ever compares the date portion of a timestamp (the
  slice of the first ten characters of an ISO string), which on this
  model is the identity.
- JavaScript numbers appearing in the aggregates are modelled exactly:
  sums of integer fields are Int, the mean is formed in Rat, and
  Math.round q is the floor of q + 1/2 (its value on all reals).
- A realtime payload carries its eventType string and the new and old
  rows, exactly as destructured by the handlers.
- Supabase query results resolve to a data/error pair and never throw;
  the handlers read exactly the fields the code reads.
-/

namespace Onboardly

/-- A realtime change payload as destructured by every channel handler:
the eventType string and the new and old rows. -/
structure Payload (α : Type) where
  eventType : String
  newRow : α
  old : α
deriving DecidableEq

/-- An employee row: the fields the dashboard reads. The created_at
timestamp is modelled by its day index; none models a null field. -/
structure Employee where
  id : Int
  full_name : String
  email : String
  created_at : Option Int
deriving DecidableEq

/-- An app row. -/
structure App where
  id : Int
  name : String
  description : String
  created_at : Option Int
deriving DecidableEq

/-- An employee_onboardings row. -/
structure Onboarding where
  id : Int
  employee_id : Int
  template_id : Int
  progress : Option Int
  started_at : Option Int
  completed : Bool
deriving DecidableEq

/-- An activity_logs entry. Ids are strings because the synthetic
entries produced by the onboarding handler carry string ids. -/
structure Activity where
  id : String
  message : String
  created_at : Int
deriving DecidableEq

/-- The reconciliation step shared verbatim by the employees, apps and
onboardings channel handlers: INSERT prepends the new row, UPDATE maps
a replace-by-key over the list, DELETE filters the old key out, and any
other eventType leaves the list unchanged. -/
def applyChange {α κ : Type} [DecidableEq κ] (key : α → κ)
    (prev : List α) (p : Payload α) : List α :=
  if p.eventType = "INSERT" then p.newRow :: prev
  else if p.eventType = "UPDATE" then
    prev.map (fun r => if key r = key p.newRow then p.newRow else r)
  else if p.eventType = "DELETE" then
    prev.filter (fun r => decide (key r ≠ key p.old))
  else prev

/-- The activity_logs channel handler: INSERT prepends and then slices
to the first 100 entries; DELETE filters; UPDATE replaces in place. -/
def applyActivity (prev : List Activity) (p : Payload Activity) : List Activity :=
  if p.eventType = "INSERT" then (p.newRow :: prev).take 100
  else if p.eventType = "DELETE" then
    prev.filter (fun r => decide (r.id ≠ p.old.id))
  else if p.eventType = "UPDATE" then
    prev.map (fun r => if r.id = p.newRow.id then p.newRow else r)
  else prev

/-- Folding a whole event sequence through the shared handler. -/
def applyEvents {α κ : Type} [DecidableEq κ] (key : α → κ)
    (init : List α) (evs : List (Payload α)) : List α :=
  evs.foldl (applyChange key) init

/-- The keys of a collection, in display order. -/
def keysOf {α κ : Type} (key : α → κ) (c : List α) : List κ :=
  c.map key

/-- The record a collection holds for a key: the first match in display
order, as a find over the list. -/
def lookupKey {α κ : Type} [DecidableEq κ] (key : α → κ)
    (c : List α) (k : κ) : Option α :=
  c.find? (fun r => decide (key r = k))

/-- The write a single payload performs for a key: an Insert or Update
whose new row has that key writes the row, a Delete of that key writes
a removal, anything else does not touch the key. -/
def toWrite {α κ : Type} [DecidableEq κ] (key : α → κ)
    (p : Payload α) (k : κ) : Option (Option α) :=
  if (p.eventType = "INSERT" ∨ p.eventType = "UPDATE") ∧ key p.newRow = k then
    some (some p.newRow)
  else if p.eventType = "DELETE" ∧ key p.old = k then some none
  else none

/-- The last write an event sequence performs for a key, none when no
event in the sequence touches the key. -/
def lastWrite {α κ : Type} [DecidableEq κ] (key : α → κ)
    (evs : List (Payload α)) (k : κ) : Option (Option α) :=
  match evs with
  | [] => none
  | p :: ps =>
    match lastWrite key ps k with
    | some w => some w
    | none => toWrite key p k

/-- Resolving a possible write against the record the initial
collection held for the key. -/
def resolve {α : Type} (w : Option (Option α)) (base : Option α) : Option α :=
  match w with
  | none => base
  | some w => w

/-- Well-formed delivery relative to the evolving collection: every
Insert is for a key not currently present (no duplicate delivery) and
every Update is for a key currently present. -/
def WFEvents {α κ : Type} [DecidableEq κ] (key : α → κ) :
    List α → List (Payload α) → Prop
  | _, [] => True
  | c, p :: ps =>
    (p.eventType = "INSERT" → key p.newRow ∉ keysOf key c) ∧
    (p.eventType = "UPDATE" → key p.newRow ∈ keysOf key c) ∧
    WFEvents key (applyChange key c p) ps

instance instDecidableWFEvents {α κ : Type} [DecidableEq κ] (key : α → κ) :
    (c : List α) → (evs : List (Payload α)) → Decidable (WFEvents key c evs)
  | _, [] => Decidable.isTrue trivial
  | c, p :: ps =>
    have : Decidable (WFEvents key (applyChange key c p) ps) :=
      instDecidableWFEvents key (applyChange key c p) ps
    inferInstanceAs (Decidable
      ((p.eventType = "INSERT" → key p.newRow ∉ keysOf key c) ∧
       (p.eventType = "UPDATE" → key p.newRow ∈ keysOf key c) ∧
       WFEvents key (applyChange key c p) ps))

theorem lookupKey_cons {α κ : Type} [DecidableEq κ] (key : α → κ)
    (r : α) (t : List α) (k : κ) :
    lookupKey key (r :: t) k = if key r = k then some r else lookupKey key t k := by
  by_cases h : key r = k
  · simp [lookupKey, List.find?_cons, h]
  · simp [lookupKey, List.find?_cons, h]

theorem keysOf_update {α κ : Type} [DecidableEq κ] (key : α → κ) (n : α) (c : List α) :
    keysOf key (c.map (fun r => if key r = key n then n else r)) = keysOf key c := by
  unfold keysOf
  rw [List.map_map]
  apply List.map_congr_left
  intro r _
  by_cases h : key r = key n
  · simp [Function.comp, h]
  · simp [Function.comp, h]

theorem lookupKey_update_self {α κ : Type} [DecidableEq κ] (key : α → κ)
    (n : α) (c : List α) (hmem : key n ∈ keysOf key c) :
    lookupKey key (c.map (fun r => if key r = key n then n else r)) (key n) = some n := by
  induction c with
  | nil => simp [keysOf] at hmem
  | cons r t ih =>
    rw [List.map_cons, lookupKey_cons]
    by_cases h : key r = key n
    · simp [h]
    · rw [if_neg h, if_neg (by simp [h])]
      apply ih
      simp [keysOf] at hmem ⊢
      rcases hmem with h1 | h1
      · exact absurd h1.symm h
      · exact h1

theorem lookupKey_update_other {α κ : Type} [DecidableEq κ] (key : α → κ)
    (n : α) (c : List α) (k : κ) (hk : k ≠ key n) :
    lookupKey key (c.map (fun r => if key r = key n then n else r)) k =
      lookupKey key c k := by
  induction c with
  | nil => rfl
  | cons r t ih =>
    rw [List.map_cons, lookupKey_cons, lookupKey_cons]
    by_cases h : key r = key n
    · have h1 : ¬ (key n = k) := fun hc => hk hc.symm
      have h2 : ¬ (key r = k) := fun hc => hk (by rw [← hc]; exact h)
      rw [if_pos h, if_neg h1, if_neg h2]
      exact ih
    · rw [if_neg h]
      by_cases h2 : key r = k
      · rw [if_pos h2, if_pos h2]
      · rw [if_neg h2, if_neg h2]
        exact ih

theorem lookupKey_delete_self {α κ : Type} [DecidableEq κ] (key : α → κ)
    (o : α) (c : List α) :
    lookupKey key (c.filter (fun r => decide (key r ≠ key o))) (key o) = none := by
  induction c with
  | nil => rfl
  | cons r t ih =>
    by_cases h : key r = key o
    · rw [List.filter_cons_of_neg (by simp [h])]
      exact ih
    · rw [List.filter_cons_of_pos (by simp [h]), lookupKey_cons, if_neg h]
      exact ih

theorem lookupKey_delete_other {α κ : Type} [DecidableEq κ] (key : α → κ)
    (o : α) (c : List α) (k : κ) (hk : k ≠ key o) :
    lookupKey key (c.filter (fun r => decide (key r ≠ key o))) k =
      lookupKey key c k := by
  induction c with
  | nil => rfl
  | cons r t ih =>
    by_cases h : key r = key o
    · rw [List.filter_cons_of_neg (by simp [h]), lookupKey_cons,
          if_neg (fun hc => hk (by rw [← hc]; exact h))]
      exact ih
    · rw [List.filter_cons_of_pos (by simp [h]), lookupKey_cons, lookupKey_cons]
      by_cases h2 : key r = k
      · rw [if_pos h2, if_pos h2]
      · rw [if_neg h2, if_neg h2]
        exact ih

theorem keysOf_delete_sublist {α κ : Type} [DecidableEq κ] (key : α → κ)
    (o : α) (c : List α) :
    (keysOf key (c.filter (fun r => decide (key r ≠ key o)))).Sublist (keysOf key c) :=
  List.Sublist.map key (List.filter_sublist c)

theorem applyChange_lookup {α κ : Type} [DecidableEq κ] (key : α → κ)
    (c : List α) (p : Payload α)
    (hupd : p.eventType = "UPDATE" → key p.newRow ∈ keysOf key c) (k : κ) :
    lookupKey key (applyChange key c p) k =
      resolve (toWrite key p k) (lookupKey key c k) := by
  by_cases hI : p.eventType = "INSERT"
  · rw [applyChange, if_pos hI, lookupKey_cons]
    by_cases hk : key p.newRow = k
    · rw [if_pos hk, toWrite, if_pos ⟨Or.inl hI, hk⟩, resolve]
    · rw [if_neg hk, toWrite, if_neg (fun hc => hk hc.2),
          if_neg (by rw [hI]; simp), resolve]
  · by_cases hU : p.eventType = "UPDATE"
    · rw [applyChange, if_neg hI, if_pos hU]
      by_cases hk : key p.newRow = k
      · rw [toWrite, if_pos ⟨Or.inr hU, hk⟩, resolve, ← hk]
        exact lookupKey_update_self key p.newRow c (hupd hU)
      · rw [toWrite, if_neg (fun hc => hk hc.2), if_neg (by rw [hU]; simp), resolve]
        exact lookupKey_update_other key p.newRow c k (fun hc => hk hc.symm)
    · by_cases hD : p.eventType = "DELETE"
      · rw [applyChange, if_neg hI, if_neg hU, if_pos hD]
        by_cases hk : key p.old = k
        · rw [toWrite, if_neg (by rw [hD]; simp), if_pos ⟨hD, hk⟩, resolve, ← hk]
          exact lookupKey_delete_self key p.old c
        · rw [toWrite, if_neg (by rw [hD]; simp), if_neg (fun hc => hk hc.2), resolve]
          exact lookupKey_delete_other key p.old c k (fun hc => hk hc.symm)
      · rw [applyChange, if_neg hI, if_neg hU, if_neg hD,
            toWrite, if_neg (fun hc => hc.1.elim hI hU), if_neg (fun hc => hD hc.1), resolve]

theorem applyChange_nodup {α κ : Type} [DecidableEq κ] (key : α → κ)
    (c : List α) (p : Payload α)
    (hnd : (keysOf key c).Nodup)
    (hins : p.eventType = "INSERT" → key p.newRow ∉ keysOf key c) :
    (keysOf key (applyChange key c p)).Nodup := by
  by_cases hI : p.eventType = "INSERT"
  · rw [applyChange, if_pos hI]
    exact List.Nodup.cons (hins hI) hnd
  · by_cases hU : p.eventType = "UPDATE"
    · rw [applyChange, if_neg hI, if_pos hU, keysOf_update]
      exact hnd
    · by_cases hD : p.eventType = "DELETE"
      · rw [applyChange, if_neg hI, if_neg hU, if_pos hD]
        exact List.Nodup.sublist (keysOf_delete_sublist key p.old c) hnd
      · rw [applyChange, if_neg hI, if_neg hU, if_neg hD]
        exact hnd

/-- C1 (amended): provided every Insert is delivered for a key not
currently present and every Update for a key currently present, the
reconciliation fold keeps the keys of the collection duplicate-free,
and the record held for each key is exactly the last write the event
sequence performed for that key (falling back to the record the
initial collection held when no event touched the key). -/
theorem claim1_reconcile_last_write {α κ : Type} [DecidableEq κ] (key : α → κ)
    (evs : List (Payload α)) (c : List α)
    (hnd : (keysOf key c).Nodup) (hwf : WFEvents key c evs) :
    (keysOf key (applyEvents key c evs)).Nodup ∧
    ∀ k, lookupKey key (applyEvents key c evs) k =
      resolve (lastWrite key evs k) (lookupKey key c k) := by
  induction evs generalizing c with
  | nil => exact ⟨hnd, fun k => rfl⟩
  | cons p ps ih =>
    obtain ⟨h1, h2, h3⟩ := hwf
    have hnd2 := applyChange_nodup key c p hnd h1
    obtain ⟨ihn, ihl⟩ := ih (applyChange key c p) hnd2 h3
    refine ⟨ihn, fun k => ?_⟩
    have hstep := applyChange_lookup key c p h2 k
    have hchain : lookupKey key (applyEvents key c (p :: ps)) k =
        resolve (lastWrite key ps k) (resolve (toWrite key p k) (lookupKey key c k)) := by
      rw [show applyEvents key c (p :: ps) = applyEvents key (applyChange key c p) ps from rfl,
          ihl k, hstep]
    rw [hchain]
    show resolve (lastWrite key ps k) (resolve (toWrite key p k) (lookupKey key c k)) =
      resolve (lastWrite key (p :: ps) k) (lookupKey key c k)
    cases h : lastWrite key ps k with
    | some w =>
      rw [lastWrite]
      rw [h]
      rfl
    | none =>
      rw [lastWrite]
      rw [h]
      rfl

/-- Concrete employee rows for counterexamples and witnesses; empA and
empB share the key 1, empC has the key 2. -/
def empA : Employee :=
  { id := 1, full_name := "Ada", email := "ada@example.com", created_at := none }

def empB : Employee :=
  { id := 1, full_name := "Bea", email := "bea@example.com", created_at := none }

def empC : Employee :=
  { id := 2, full_name := "Cal", email := "cal@example.com", created_at := none }

/-- An INSERT payload for an employee row. -/
def insPayload (e : Employee) : Payload Employee :=
  { eventType := "INSERT", newRow := e, old := e }

/-- An UPDATE payload for an employee row. -/
def updPayload (e : Employee) : Payload Employee :=
  { eventType := "UPDATE", newRow := e, old := e }

/-- A DELETE payload for an employee row. -/
def delPayload (e : Employee) : Payload Employee :=
  { eventType := "DELETE", newRow := e, old := e }

/-- C1 counterexample: the Insert branch prepends unconditionally, so
delivering two Insert events with the same key 1 leaves two records
with that key in the collection, refuting the claim that every event
sequence keeps at most one record per key. -/
theorem claim1_cx :
    ¬ (keysOf Employee.id
        (applyEvents Employee.id [] [insPayload empA, insPayload empB])).Nodup ∧
    ((applyEvents Employee.id [] [insPayload empA, insPayload empB]).filter
        (fun r => decide (r.id = 1))).length = 2 := by
  decide

/-- C1 witness: on a concrete well-formed sequence the record held for
key 1 is the last write for that key. -/
theorem claim1_witness :
    lookupKey Employee.id (applyEvents Employee.id []
      [insPayload empA, updPayload empB, insPayload empC, delPayload empC]) 1 =
    resolve (lastWrite Employee.id
      [insPayload empA, updPayload empB, insPayload empC, delPayload empC] 1)
      (lookupKey Employee.id [] 1) :=
  (claim1_reconcile_last_write Employee.id
    [insPayload empA, updPayload empB, insPayload empC, delPayload empC] []
    (by decide) (by decide)).2 1

/-- C2 (amended): the Update branch maps a replace-by-key over the
collection, so an Update event whose key is absent leaves the
collection unchanged — the event is dropped, not treated as an
Insert. -/
theorem claim2_update_absent_dropped {α κ : Type} [DecidableEq κ] (key : α → κ)
    (c : List α) (p : Payload α) (hU : p.eventType = "UPDATE")
    (habs : key p.newRow ∉ keysOf key c) :
    applyChange key c p = c := by
  rw [applyChange, if_neg (by rw [hU]; simp), if_pos hU]
  have h : ∀ r ∈ c, (fun r => if key r = key p.newRow then p.newRow else r) r = id r := by
    intro r hr
    simp only [id]
    refine if_neg (fun hc => habs ?_)
    rw [← hc]
    exact List.mem_map_of_mem key hr
  rw [List.map_congr_left h, List.map_id]

/-- C2 counterexample: an Update for key 1 applied to the empty
collection leaves it empty — the record is not added, refuting the
claimed Insert fallback. -/
theorem claim2_cx :
    applyChange Employee.id [] (updPayload empA) = [] ∧
    (updPayload empA).eventType = "UPDATE" ∧
    (updPayload empA).newRow ∉ applyChange Employee.id [] (updPayload empA) := by
  decide

/-- C2 witness: dropping an absent-key Update on a concrete one-record
collection. -/
theorem claim2_witness :
    applyChange Employee.id [empC] (updPayload empA) = [empC] :=
  claim2_update_absent_dropped Employee.id [empC] (updPayload empA) rfl (by decide)

/-- The four in-memory collections held by the dashboard component. -/
structure DashState where
  employees : List Employee
  apps : List App
  onboardings : List Onboarding
  activities : List Activity
deriving DecidableEq

/-- The employees channel callback: reconciles the employees list. -/
def applyEmployeesEvent (s : DashState) (p : Payload Employee) : DashState :=
  { s with employees := applyChange Employee.id s.employees p }

/-- The apps channel callback: reconciles the apps list. -/
def applyAppsEvent (s : DashState) (p : Payload App) : DashState :=
  { s with apps := applyChange App.id s.apps p }

/-- The synthetic activity entry the onboardings callback prepends when
an Update reports progress 100: a locally generated id and timestamp
(now stands for Date.now and the current ISO timestamp). -/
def syntheticActivity (now : Int) (eid : Int) : Activity :=
  { id := "act-" ++ toString now
  , message := "Onboarding completed for employee_id " ++ toString eid
  , created_at := now }

/-- The onboardings channel callback: reconciles the onboardings list
and, when the payload is an Update whose new row has progress 100,
additionally prepends a synthetic activity entry (without truncating
the activities list). -/
def applyOnboardingsEvent (now : Int) (s : DashState) (p : Payload Onboarding) : DashState :=
  let s1 := { s with onboardings := applyChange Onboarding.id s.onboardings p }
  if p.eventType = "UPDATE" ∧ p.newRow.progress = some 100 then
    { s1 with activities := syntheticActivity now p.newRow.employee_id :: s1.activities }
  else s1

/-- The activity_logs channel callback: reconciles the activities list
with the 100-entry slice on Insert. -/
def applyActivitiesEvent (s : DashState) (p : Payload Activity) : DashState :=
  { s with activities := applyActivity s.activities p }

/-- C3 (amended): the employees, apps and activity_logs callbacks each
mutate only their own collection; the onboardings callback leaves the
employees and apps collections unchanged always, and leaves the
activities collection unchanged unless the payload is an Update whose
new row has progress 100, in which case it prepends a synthetic
activity entry. -/
theorem claim3_frame (s : DashState) (now : Int)
    (pe : Payload Employee) (pa : Payload App)
    (po : Payload Onboarding) (pl : Payload Activity)
    (hpo : ¬ (po.eventType = "UPDATE" ∧ po.newRow.progress = some 100)) :
    ((applyEmployeesEvent s pe).apps = s.apps ∧
     (applyEmployeesEvent s pe).onboardings = s.onboardings ∧
     (applyEmployeesEvent s pe).activities = s.activities) ∧
    ((applyAppsEvent s pa).employees = s.employees ∧
     (applyAppsEvent s pa).onboardings = s.onboardings ∧
     (applyAppsEvent s pa).activities = s.activities) ∧
    ((applyActivitiesEvent s pl).employees = s.employees ∧
     (applyActivitiesEvent s pl).apps = s.apps ∧
     (applyActivitiesEvent s pl).onboardings = s.onboardings) ∧
    ((applyOnboardingsEvent now s po).employees = s.employees ∧
     (applyOnboardingsEvent now s po).apps = s.apps ∧
     (applyOnboardingsEvent now s po).activities = s.activities) := by
  refine ⟨⟨rfl, rfl, rfl⟩, ⟨rfl, rfl, rfl⟩, ⟨rfl, rfl, rfl⟩, ?_⟩
  rw [applyOnboardingsEvent]
  rw [if_neg hpo]
  exact ⟨rfl, rfl, rfl⟩

/-- A concrete dashboard state for counterexamples and witnesses: no
employees or apps, one onboarding in progress, an empty activity
feed. -/
def stateO : DashState :=
  { employees := []
  , apps := []
  , onboardings := [{ id := 7, employee_id := 3, template_id := 1,
                      progress := some 40, started_at := none, completed := false }]
  , activities := [] }

/-- The payload of an onboarding Update whose new row reports progress
100 for the record with id 7. -/
def payloadDone : Payload Onboarding :=
  { eventType := "UPDATE"
  , newRow := { id := 7, employee_id := 3, template_id := 1,
                progress := some 100, started_at := none, completed := false }
  , old := { id := 7, employee_id := 3, template_id := 1,
             progress := some 40, started_at := none, completed := false } }

/-- The payload of an onboarding Insert with id 8. -/
def payloadIns : Payload Onboarding :=
  { eventType := "INSERT"
  , newRow := { id := 8, employee_id := 4, template_id := 1,
                progress := some 0, started_at := none, completed := false }
  , old := { id := 8, employee_id := 4, template_id := 1,
             progress := some 0, started_at := none, completed := false } }

/-- C3 counterexample: an onboarding-record Update event with progress
100 mutates the activities collection as well, refuting the claim that
every callback mutates exactly one collection. -/
theorem claim3_cx :
    (applyOnboardingsEvent 5 stateO payloadDone).activities ≠ stateO.activities ∧
    (applyOnboardingsEvent 5 stateO payloadDone).activities =
      [syntheticActivity 5 3] := by
  decide

/-- A concrete app row. -/
def appN : App :=
  { id := 1, name := "Slack", description := "chat", created_at := none }

/-- A concrete activity entry. -/
def actN : Activity :=
  { id := "a1", message := "joined", created_at := 0 }

/-- An Insert payload for the concrete app row. -/
def payloadInsApp : Payload App :=
  { eventType := "INSERT", newRow := appN, old := appN }

/-- An Insert payload for the concrete activity entry. -/
def payloadInsAct : Payload Activity :=
  { eventType := "INSERT", newRow := actN, old := actN }

/-- C3 witness: an onboarding Insert event leaves the activities
collection unchanged on a concrete state. -/
theorem claim3_witness :
    (applyOnboardingsEvent 5 stateO payloadIns).activities = stateO.activities :=
  (claim3_frame stateO 5 (insPayload empA) payloadInsApp payloadIns payloadInsAct
    (by decide)).2.2.2.2.2

theorem applyActivity_length (c : List Activity) (p : Payload Activity)
    (hc : c.length ≤ 100) : (applyActivity c p).length ≤ 100 := by
  by_cases hI : p.eventType = "INSERT"
  · rw [applyActivity, if_pos hI, List.length_take]
    exact min_le_left _ _
  · by_cases hD : p.eventType = "DELETE"
    · rw [applyActivity, if_neg hI, if_pos hD]
      exact le_trans (List.length_filter_le _ _) hc
    · by_cases hU : p.eventType = "UPDATE"
      · rw [applyActivity, if_neg hI, if_neg hD, if_pos hU, List.length_map]
        exact hc
      · rw [applyActivity, if_neg hI, if_neg hD, if_neg hU]
        exact hc

/-- C4 (amended): starting from at most 100 entries, any sequence of
activity-channel events keeps the feed at or below 100 entries, and an
Insert truncates by keeping a front segment of the prepended list, so
only tail (oldest by position) entries are discarded. The bound does
not extend to the synthetic prepend performed by the onboardings
callback, which does not truncate. -/
theorem claim4_activity_bound
    (evs : List (Payload Activity)) (c : List Activity) (p : Payload Activity)
    (hc : c.length ≤ 100) :
    (evs.foldl applyActivity c).length ≤ 100 ∧
    (p.eventType = "INSERT" →
      ∃ rest, applyActivity c p ++ rest = p.newRow :: c) := by
  constructor
  · induction evs generalizing c with
    | nil => exact hc
    | cons q qs ih =>
      exact ih (applyActivity c q) (applyActivity_length c q hc)
  · intro hI
    rw [applyActivity, if_pos hI]
    exact ⟨(p.newRow :: c).drop 100, List.take_append_drop 100 (p.newRow :: c)⟩

/-- A dashboard state whose activity feed already holds 100 entries. -/
def stateH : DashState :=
  { employees := []
  , apps := []
  , onboardings := stateO.onboardings
  , activities := List.replicate 100 actN }

/-- C4 counterexample: from a full 100-entry feed, a single onboarding
Update with progress 100 prepends a synthetic activity entry without
truncating, growing the feed to 101 entries. -/
theorem claim4_cx :
    stateH.activities.length ≤ 100 ∧
    100 < (applyOnboardingsEvent 9 stateH payloadDone).activities.length := by
  have h1 : stateH.activities = List.replicate 100 actN := rfl
  have h2 : (applyOnboardingsEvent 9 stateH payloadDone).activities =
      syntheticActivity 9 3 :: List.replicate 100 actN := rfl
  constructor
  · rw [h1, List.length_replicate]
  · rw [h2, List.length_cons, List.length_replicate]
    exact Nat.lt_succ_self 100

/-- C4 witness: the bound evaluated on a concrete insert into the
empty feed. -/
theorem claim4_witness : ([payloadInsAct].foldl applyActivity []).length ≤ 100 :=
  (claim4_activity_bound [payloadInsAct] [] payloadInsAct (by decide)).1

/-- A supabase query error: a code and a message. -/
structure QueryErr where
  code : String
  message : String
deriving DecidableEq

/-- A resolved supabase query: a data/error pair. The client never
sees a rejected promise; failures arrive as a some error with no
data. -/
structure QueryResult (α : Type) where
  data : Option (List α)
  error : Option QueryErr
deriving DecidableEq

/-- The component state the fetch paths write: the four collections
plus the error and loading flags. -/
structure PageState where
  employees : List Employee
  apps : List App
  onboardings : List Onboarding
  activities : List Activity
  error : String
  loading : Bool
deriving DecidableEq

/-- The error text stored by the catch branch: err.message, falling
back to a fixed message when it is empty. -/
def errText (e : QueryErr) : String :=
  if e.message = "" then "Failed to load data" else e.message

/-- The state after the initial-load catch plus finally: the error is
set, loading cleared, and every collection keeps its previous value. -/
def failState (prev : PageState) (e : QueryErr) : PageState :=
  { prev with error := errText e, loading := false }

/-- The all-queries-resolved assignment: each collection receives the
query data or the empty list, the error is cleared, loading ends. -/
def successState (emp : QueryResult Employee) (apps : QueryResult App)
    (onb : QueryResult Onboarding) (act : QueryResult Activity) : PageState :=
  { employees := emp.data.getD []
  , apps := apps.data.getD []
  , onboardings := onb.data.getD []
  , activities := act.data.getD []
  , error := ""
  , loading := false }

/-- The initial-load fetch (fetchAll): the four queries are checked in
order and the first error throws into the catch, except an activities
error with code PGRST116, which is ignored; only when nothing throws
are the four collections assigned. -/
def fetchAll (prev : PageState) (emp : QueryResult Employee)
    (apps : QueryResult App) (onb : QueryResult Onboarding)
    (act : QueryResult Activity) : PageState :=
  match emp.error with
  | some e => failState prev e
  | none =>
    match apps.error with
    | some e => failState prev e
    | none =>
      match onb.error with
      | some e => failState prev e
      | none =>
        match act.error with
        | some e =>
          if e.code = "PGRST116" then successState emp apps onb act
          else failState prev e
        | none => successState emp apps onb act

/-- The manual refresh handler: it awaits the four queries but
destructures only their data fields, so no query error is ever
inspected or surfaced; every collection is assigned data-or-empty and
the error state is cleared. -/
def handleRefresh (_prev : PageState) (emp : QueryResult Employee)
    (apps : QueryResult App) (onb : QueryResult Onboarding)
    (act : QueryResult Activity) : PageState :=
  successState emp apps onb act

/-- What the component renders: the loading screen, the full-page
error panel (whose retry button re-runs the refresh), or the data
views. -/
inductive View where
  | loadingView : View
  | errorPanel : String → View
  | dashboardView : View
deriving DecidableEq

/-- The render gate at the top of the component. -/
def render (s : PageState) : View :=
  if s.loading then View.loadingView
  else if s.error ≠ "" then View.errorPanel s.error
  else View.dashboardView

theorem errText_ne_empty (e : QueryErr) : errText e ≠ "" := by
  rw [errText]
  by_cases h : e.message = ""
  · rw [if_pos h]
    decide
  · rw [if_neg h]
    exact h

theorem render_failState (prev : PageState) (e : QueryErr) :
    render (failState prev e) = View.errorPanel (errText e) := by
  rw [render]
  rw [if_neg (show ¬ ((failState prev e).loading = true) from
    fun hl => Bool.false_ne_true hl)]
  show (if errText e ≠ "" then View.errorPanel (errText e) else View.dashboardView) =
    View.errorPanel (errText e)
  rw [if_pos (errText_ne_empty e)]

/-- C5 (amended): on the initial load, a failure of any of the four
queries — except an activities failure with code PGRST116, which is
deliberately ignored — surfaces a single aggregate error state, renders
the error panel with its retry action, and assigns no collection. On
the manual refresh, however, query failures are never inspected: the
error state is cleared, every collection is assigned the query data or
the empty list, and the data views render. -/
theorem claim5_fetch_error_semantics (prev : PageState) (emp : QueryResult Employee)
    (apps : QueryResult App) (onb : QueryResult Onboarding) (act : QueryResult Activity) :
    ((emp.error.isSome ∨ apps.error.isSome ∨ onb.error.isSome ∨
        (∃ e, act.error = some e ∧ e.code ≠ "PGRST116")) →
      ((fetchAll prev emp apps onb act).employees = prev.employees ∧
       (fetchAll prev emp apps onb act).apps = prev.apps ∧
       (fetchAll prev emp apps onb act).onboardings = prev.onboardings ∧
       (fetchAll prev emp apps onb act).activities = prev.activities) ∧
      (fetchAll prev emp apps onb act).error ≠ "" ∧
      render (fetchAll prev emp apps onb act) =
        View.errorPanel (fetchAll prev emp apps onb act).error) ∧
    ((handleRefresh prev emp apps onb act).error = "" ∧
     (handleRefresh prev emp apps onb act).employees = emp.data.getD [] ∧
     (handleRefresh prev emp apps onb act).apps = apps.data.getD [] ∧
     (handleRefresh prev emp apps onb act).onboardings = onb.data.getD [] ∧
     (handleRefresh prev emp apps onb act).activities = act.data.getD [] ∧
     render (handleRefresh prev emp apps onb act) = View.dashboardView) := by
  constructor
  · intro h
    have hfail : ∃ e, fetchAll prev emp apps onb act = failState prev e := by
      cases hemp : emp.error with
      | some e =>
        refine ⟨e, ?_⟩
        simp only [fetchAll, hemp]
      | none =>
        cases happs : apps.error with
        | some e =>
          refine ⟨e, ?_⟩
          simp only [fetchAll, hemp, happs]
        | none =>
          cases honb : onb.error with
          | some e =>
            refine ⟨e, ?_⟩
            simp only [fetchAll, hemp, happs, honb]
          | none =>
            cases hact : act.error with
            | some e =>
              by_cases hc : e.code = "PGRST116"
              · exfalso
                rcases h with h | h | h | ⟨e2, he2, hc2⟩
                · rw [hemp] at h
                  simp at h
                · rw [happs] at h
                  simp at h
                · rw [honb] at h
                  simp at h
                · rw [hact] at he2
                  injection he2 with h3
                  exact hc2 (h3 ▸ hc)
              · refine ⟨e, ?_⟩
                simp only [fetchAll, hemp, happs, honb, hact]
                rw [if_neg hc]
            | none =>
              exfalso
              rcases h with h | h | h | ⟨e2, he2, _⟩
              · rw [hemp] at h
                simp at h
              · rw [happs] at h
                simp at h
              · rw [honb] at h
                simp at h
              · rw [hact] at he2
                exact Option.noConfusion he2
    obtain ⟨e, he⟩ := hfail
    rw [he]
    exact ⟨⟨rfl, rfl, rfl, rfl⟩, errText_ne_empty e, render_failState prev e⟩
  · exact ⟨rfl, rfl, rfl, rfl, rfl, rfl⟩

/-- A previously loaded page state holding one employee. -/
def prevD : PageState :=
  { employees := [empC], apps := [], onboardings := [], activities := []
  , error := "", loading := false }

/-- A failed employees query: no data, an error value. -/
def qFailEmp : QueryResult Employee :=
  { data := none, error := some { code := "500", message := "network down" } }

/-- Successful empty query results for the other three tables. -/
def qOkApp : QueryResult App := { data := some [], error := none }

def qOkOnb : QueryResult Onboarding := { data := some [], error := none }

def qOkAct : QueryResult Activity := { data := some [], error := none }

/-- C5 counterexample: a manual refresh whose employees query fails
surfaces no error at all (the error state stays empty and the data
views render) and still assigns the employees collection, clearing it
to the empty list — refuting the claim for the refresh path. -/
theorem claim5_cx :
    (handleRefresh prevD qFailEmp qOkApp qOkOnb qOkAct).error = "" ∧
    (handleRefresh prevD qFailEmp qOkApp qOkOnb qOkAct).employees = [] ∧
    prevD.employees ≠ [] ∧
    qFailEmp.error.isSome = true ∧
    render (handleRefresh prevD qFailEmp qOkApp qOkOnb qOkAct) = View.dashboardView := by
  decide

/-- C5 witness: the initial load with the same failing employees query
does surface a nonempty aggregate error state. -/
theorem claim5_witness :
    (fetchAll prevD qFailEmp qOkApp qOkOnb qOkAct).error ≠ "" :=
  ((claim5_fetch_error_semantics prevD qFailEmp qOkApp qOkOnb qOkAct).1
    (Or.inl (by decide))).2.1

/-- Math.round: the floor of the argument plus one half, which is the
value of the JavaScript built-in on every finite argument (half always
rounds toward positive infinity). -/
def mathRound (q : ℚ) : Int := ⌊q + 1/2⌋

/-- The reduce inside stats.adoptionAvg: sums the progress values with
a 0 fallback for null or absent progress. -/
def sumProgress (os : List Onboarding) : Int :=
  os.foldl (fun s o => s + o.progress.getD 0) 0

/-- The arithmetic mean of the progress values, as the spec words it. -/
def meanProgress (os : List Onboarding) : ℚ :=
  (sumProgress os : ℚ) / (os.length : ℚ)

/-- stats.adoptionAvg: 0 when there are no onboarding records,
otherwise Math.round of the summed progress over the record count. -/
def adoptionAvg (os : List Onboarding) : Int :=
  if os.length = 0 then 0
  else mathRound ((sumProgress os : ℚ) / (os.length : ℚ))

/-- An onboarding record with a given id and progress value. -/
def obProg (i : Int) (p : Int) : Onboarding :=
  { id := i, employee_id := i, template_id := 1, progress := some p
  , started_at := none, completed := false }

/-- The spec's first example collection, progress values 20, 50, 80. -/
def exA : List Onboarding := [obProg 1 20, obProg 2 50, obProg 3 80]

/-- The spec's second example collection, progress values 33, 34. -/
def exB : List Onboarding := [obProg 1 33, obProg 2 34]

/-- C6: the adoption aggregate is 0 on the empty collection, and on a
nonempty collection it is the integer nearest the arithmetic mean of
the progress values with halves rounded up — the aggregate differs
from the mean by at most one half and never by a full negative half;
on the spec's examples it yields 50 and (via the 33.5 tie) 34. -/
theorem claim6_adoption_round_half_up :
    (∀ os : List Onboarding, os.length ≠ 0 →
      -(1/2 : ℚ) < (adoptionAvg os : ℚ) - meanProgress os ∧
      (adoptionAvg os : ℚ) - meanProgress os ≤ 1/2) ∧
    adoptionAvg [] = 0 ∧
    adoptionAvg exA = 50 ∧
    adoptionAvg exB = 34 := by
  refine ⟨?_, rfl, ?_, ?_⟩
  case refine_2 =>
    rw [adoptionAvg, if_neg (by decide)]
    norm_num [mathRound, sumProgress, exA, obProg, List.foldl_cons]
  case refine_3 =>
    rw [adoptionAvg, if_neg (by decide)]
    norm_num [mathRound, sumProgress, exB, obProg, List.foldl_cons]
  intro os hne
  rw [adoptionAvg, if_neg hne, meanProgress, mathRound]
  constructor
  · have h := Int.lt_floor_add_one
      ((sumProgress os : ℚ) / (os.length : ℚ) + 1/2)
    linarith
  · have h := Int.floor_le
      ((sumProgress os : ℚ) / (os.length : ℚ) + 1/2)
    linarith

/-- C6 witness: the characterization evaluated on the two-record
example, whose mean 33.5 is a tie. -/
theorem claim6_witness :
    -(1/2 : ℚ) < (adoptionAvg exB : ℚ) - meanProgress exB ∧
    (adoptionAvg exB : ℚ) - meanProgress exB ≤ 1/2 :=
  claim6_adoption_round_half_up.1 exB (by decide)

theorem sumProgress_cons (o : Onboarding) (os : List Onboarding) :
    sumProgress (o :: os) = o.progress.getD 0 + sumProgress os := by
  have key : ∀ (l : List Onboarding) (a : Int),
      l.foldl (fun s x => s + x.progress.getD 0) a =
        a + l.foldl (fun s x => s + x.progress.getD 0) 0 := by
    intro l
    induction l with
    | nil => intro a; simp
    | cons x t ih =>
      intro a
      rw [List.foldl_cons, List.foldl_cons, ih (a + x.progress.getD 0),
          ih (0 + x.progress.getD 0)]
      ring
  rw [sumProgress, sumProgress, List.foldl_cons, key os (0 + o.progress.getD 0)]
  ring

/-- C10: a record whose progress is null or absent contributes 0 to
the sum while still counting in the divisor — the aggregate on such a
record plus a collection equals the rounded mean over the enlarged
divisor, and (for a nonempty, nonnegative-sum collection) can only
lower the reported average, never leave it unchanged by skipping. -/
theorem claim10_null_progress (o : Onboarding) (os : List Onboarding)
    (hnone : o.progress = none) :
    sumProgress (o :: os) = sumProgress os ∧
    (o :: os).length = os.length + 1 ∧
    adoptionAvg (o :: os) =
      mathRound ((sumProgress os : ℚ) / ((os.length : ℚ) + 1)) ∧
    (os ≠ [] → 0 ≤ sumProgress os → adoptionAvg (o :: os) ≤ adoptionAvg os) := by
  have hsum : sumProgress (o :: os) = sumProgress os := by
    rw [sumProgress_cons, hnone]
    simp
  have hlen : ((o :: os).length : ℚ) = (os.length : ℚ) + 1 := by
    push_cast [List.length_cons]
    ring
  have havg : adoptionAvg (o :: os) =
      mathRound ((sumProgress os : ℚ) / ((os.length : ℚ) + 1)) := by
    rw [adoptionAvg, if_neg (by simp), hsum, hlen]
  refine ⟨hsum, List.length_cons o os, havg, ?_⟩
  intro hne hs
  have hn1 : (1 : ℚ) ≤ (os.length : ℚ) := by
    have := List.length_pos.mpr hne
    exact_mod_cast this
  have hs2 : (0 : ℚ) ≤ (sumProgress os : ℚ) := by exact_mod_cast hs
  rw [havg, adoptionAvg, if_neg (by simpa using List.length_pos.mpr hne |>.ne'), mathRound, mathRound]
  apply Int.floor_mono
  have hdiv : (sumProgress os : ℚ) / ((os.length : ℚ) + 1) ≤
      (sumProgress os : ℚ) / (os.length : ℚ) := by
    rw [div_le_div_iff₀ (by linarith) (by linarith)]
    nlinarith
  linarith

/-- An onboarding record with a null progress field. -/
def obNone : Onboarding :=
  { id := 9, employee_id := 9, template_id := 1, progress := none
  , started_at := none, completed := false }

/-- C10 witness: the null-progress record contributes nothing to the
sum of the concrete two-record collection. -/
theorem claim10_witness :
    sumProgress (obNone :: exB) = sumProgress exB :=
  (claim10_null_progress obNone exB rfl).1

/-- A JavaScript value appearing in an exported row. -/
inductive JVal where
  | jnull : JVal
  | jnum : Int → JVal
  | jstr : String → JVal
  | jbool : Bool → JVal
deriving DecidableEq

/-- String(v), the stringification applied to a non-null cell value. -/
def jvalString : JVal → String
  | JVal.jnull => "null"
  | JVal.jnum n => toString n
  | JVal.jstr s => s
  | JVal.jbool b => if b then "true" else "false"

/-- The loose null test (v == null), true for null and for the
undefined value an absent field reads as. -/
def isNullish : JVal → Bool
  | JVal.jnull => true
  | _ => false

/-- Reading a field of a row object: rows are field-name/value lists
in insertion order, and a missing key reads as null/undefined. -/
def getField (r : List (String × JVal)) (k : String) : JVal :=
  match r.find? (fun kv => kv.1 == k) with
  | some kv => kv.2
  | none => JVal.jnull

/-- The global regex replace of every double-quote character by two
double-quote characters. -/
def csvEscape (s : String) : String :=
  String.join (s.data.map (fun c => if c = '"' then "\"\"" else String.singleton c))

/-- One exported cell: the value stringified (the empty string for
null or absent values), quote-doubled and wrapped in double quotes. -/
def csvCell (v : JVal) : String :=
  "\"" ++ csvEscape (if isNullish v then "" else jvalString v) ++ "\""

/-- csvFromArray: the empty input returns the empty string; otherwise
the keys of the first row joined by commas start the line list, each
row pushes its cells joined by commas, and the lines are joined by
newlines. -/
def csvFromArray (rows : List (List (String × JVal))) : String :=
  match rows with
  | [] => ""
  | r0 :: _ =>
    let keys := r0.map Prod.fst
    String.intercalate "\n"
      (rows.foldl
        (fun lines r =>
          lines ++ [String.intercalate "," (keys.map (fun k => csvCell (getField r k)))])
        [String.intercalate "," keys])

/-- The export projection as the spec words it: one data row per
record, rendered against the field names of the first record. -/
def csvSpecRow (keys : List String) (r : List (String × JVal)) : String :=
  String.intercalate "," (keys.map (fun k => csvCell (getField r k)))

/-- The export projection as the spec words it: a header row of the
first record's field names followed by the data rows, newline
separated. -/
def csvSpec (rows : List (List (String × JVal))) : String :=
  match rows with
  | [] => ""
  | r0 :: _ =>
    String.intercalate "\n"
      (String.intercalate "," (r0.map Prod.fst) ::
        rows.map (csvSpecRow (r0.map Prod.fst)))

theorem foldl_push_eq_map {α β : Type} (f : α → β) (l : List α) (init : List β) :
    l.foldl (fun acc r => acc ++ [f r]) init = init ++ l.map f := by
  induction l generalizing init with
  | nil => simp
  | cons x t ih =>
    rw [List.foldl_cons, ih (init ++ [f x]), List.map_cons, List.append_assoc,
        List.singleton_append]

/-- The spec's example rows: one record with a quote inside a string
value, one plain record. -/
def exRows : List (List (String × JVal)) :=
  [ [("id", JVal.jnum 1), ("name", JVal.jstr "A \"X\"")]
  , [("id", JVal.jnum 2), ("name", JVal.jstr "B")] ]

/-- C7: on every nonempty input the exporter produces exactly the
spec's projection — a header row of the first record's field names
followed by one quoted, quote-doubled row per record — and on the
spec's example it produces the exact expected text with the doubled
embedded quotes. -/
theorem claim7_csv :
    (∀ rows : List (List (String × JVal)), rows ≠ [] →
      csvFromArray rows = csvSpec rows) ∧
    csvFromArray exRows = "id,name\n\"1\",\"A \"\"X\"\"\"\n\"2\",\"B\"" := by
  constructor
  · intro rows hne
    cases rows with
    | nil => exact absurd rfl hne
    | cons r0 rest =>
      show String.intercalate "\n"
          ((r0 :: rest).foldl
            (fun lines r => lines ++
              [String.intercalate ","
                ((r0.map Prod.fst).map (fun k => csvCell (getField r k)))])
            [String.intercalate "," (r0.map Prod.fst)]) =
        String.intercalate "\n"
          (String.intercalate "," (r0.map Prod.fst) ::
            (r0 :: rest).map (csvSpecRow (r0.map Prod.fst)))
      rw [foldl_push_eq_map (fun r => String.intercalate ","
            ((r0.map Prod.fst).map (fun k => csvCell (getField r k)))),
          List.singleton_append]
      rfl
  · decide

/-- C7 witness: the exporter agrees with the spec projection on the
concrete example rows. -/
theorem claim7_witness : csvFromArray exRows = csvSpec exRows :=
  claim7_csv.1 exRows (by decide)

/-- C9: exporting an empty collection returns the empty string — no
header row is emitted when there is no first record. -/
theorem claim9_csv_empty : csvFromArray [] = "" := rfl

/-- One bucket of the 7-day chart: a day key and the two counts. -/
structure DayBucket where
  date : Int
  employees : Nat
  onboardings : Nat
deriving DecidableEq

/-- The loop filling the chart map: for i from 6 down to 0 it inserts
a zeroed bucket keyed by the day i days before today, so the bucket
list runs oldest to newest. Days are the date portion of timestamps,
modelled as day indices. -/
def initBuckets (today : Int) : List DayBucket :=
  (List.range 7).map (fun idx =>
    { date := today - (6 - Int.ofNat idx), employees := 0, onboardings := 0 })

/-- The increment applied when an employee's creation day hits a
bucket key; a day outside the window touches no bucket. Bucket keys
are pairwise distinct, so this models the keyed map update. -/
def bumpEmployee (m : List DayBucket) (k : Int) : List DayBucket :=
  m.map (fun b => if b.date = k then { b with employees := b.employees + 1 } else b)

/-- The increment applied when an onboarding's start day hits a bucket
key. -/
def bumpOnboarding (m : List DayBucket) (k : Int) : List DayBucket :=
  m.map (fun b => if b.date = k then { b with onboardings := b.onboardings + 1 } else b)

/-- chartData: the zeroed 7-day window, then one pass over the
employees bumping by created_at day (null timestamps are skipped),
then one pass over the onboardings bumping by started_at day. -/
def chartData (today : Int) (emps : List Employee) (obs : List Onboarding) :
    List DayBucket :=
  let m0 := initBuckets today
  let m1 := emps.foldl (fun m e =>
    match e.created_at with
    | none => m
    | some k => bumpEmployee m k) m0
  obs.foldl (fun m o =>
    match o.started_at with
    | none => m
    | some k => bumpOnboarding m k) m1

/-- The number of employees created on a given day. -/
def countCreatedOn (emps : List Employee) (d : Int) : Nat :=
  (emps.filter (fun e => decide (e.created_at = some d))).length

/-- The number of onboardings started on a given day. -/
def countStartedOn (obs : List Onboarding) (d : Int) : Nat :=
  (obs.filter (fun o => decide (o.started_at = some d))).length

theorem foldl_bumpEmployee (emps : List Employee) (m : List DayBucket) :
    emps.foldl (fun m e =>
      match e.created_at with
      | none => m
      | some k => bumpEmployee m k) m =
    m.map (fun b => { b with employees := b.employees + countCreatedOn emps b.date }) := by
  induction emps generalizing m with
  | nil => simp [countCreatedOn]
  | cons e t ih =>
    simp only [List.foldl_cons]
    cases hc : e.created_at with
    | none =>
      rw [ih m]
      apply List.map_congr_left
      intro b _
      have hcount : countCreatedOn (e :: t) b.date = countCreatedOn t b.date := by
        rw [countCreatedOn, countCreatedOn, List.filter_cons,
            if_neg (by rw [hc]; simp)]
      rw [hcount]
    | some k =>
      rw [ih (bumpEmployee m k), bumpEmployee, List.map_map]
      apply List.map_congr_left
      intro b _
      simp only [Function.comp]
      by_cases hbk : b.date = k
      · rw [if_pos hbk]
        show DayBucket.mk b.date (b.employees + 1 + countCreatedOn t b.date) b.onboardings =
          DayBucket.mk b.date (b.employees + countCreatedOn (e :: t) b.date) b.onboardings
        have hcount : countCreatedOn (e :: t) b.date = countCreatedOn t b.date + 1 := by
          rw [countCreatedOn, countCreatedOn, List.filter_cons,
              if_pos (by rw [hc, hbk]; simp), List.length_cons]
        rw [hcount]
        congr 1
        omega
      · rw [if_neg hbk]
        show DayBucket.mk b.date (b.employees + countCreatedOn t b.date) b.onboardings =
          DayBucket.mk b.date (b.employees + countCreatedOn (e :: t) b.date) b.onboardings
        have hcount : countCreatedOn (e :: t) b.date = countCreatedOn t b.date := by
          rw [countCreatedOn, countCreatedOn, List.filter_cons,
              if_neg (by rw [hc]; simp; intro hx; exact absurd hx.symm hbk)]
        rw [hcount]

theorem foldl_bumpOnboarding (obs : List Onboarding) (m : List DayBucket) :
    obs.foldl (fun m o =>
      match o.started_at with
      | none => m
      | some k => bumpOnboarding m k) m =
    m.map (fun b => { b with onboardings := b.onboardings + countStartedOn obs b.date }) := by
  induction obs generalizing m with
  | nil => simp [countStartedOn]
  | cons o t ih =>
    simp only [List.foldl_cons]
    cases hc : o.started_at with
    | none =>
      rw [ih m]
      apply List.map_congr_left
      intro b _
      have hcount : countStartedOn (o :: t) b.date = countStartedOn t b.date := by
        rw [countStartedOn, countStartedOn, List.filter_cons,
            if_neg (by rw [hc]; simp)]
      rw [hcount]
    | some k =>
      rw [ih (bumpOnboarding m k), bumpOnboarding, List.map_map]
      apply List.map_congr_left
      intro b _
      simp only [Function.comp]
      by_cases hbk : b.date = k
      · rw [if_pos hbk]
        show DayBucket.mk b.date b.employees (b.onboardings + 1 + countStartedOn t b.date) =
          DayBucket.mk b.date b.employees (b.onboardings + countStartedOn (o :: t) b.date)
        have hcount : countStartedOn (o :: t) b.date = countStartedOn t b.date + 1 := by
          rw [countStartedOn, countStartedOn, List.filter_cons,
              if_pos (by rw [hc, hbk]; simp), List.length_cons]
        rw [hcount]
        congr 1
        omega
      · rw [if_neg hbk]
        show DayBucket.mk b.date b.employees (b.onboardings + countStartedOn t b.date) =
          DayBucket.mk b.date b.employees (b.onboardings + countStartedOn (o :: t) b.date)
        have hcount : countStartedOn (o :: t) b.date = countStartedOn t b.date := by
          rw [countStartedOn, countStartedOn, List.filter_cons,
              if_neg (by rw [hc]; simp; intro hx; exact absurd hx.symm hbk)]
        rw [hcount]

/-- C8: the chart covers exactly the seven days ending today, oldest
first; bucket j carries the day key today - 6 + j, the count of
employees created on that day, and the count of onboardings started on
that day — days with no matching record carry zero because every day
in range has its bucket. -/
theorem claim8_chart_buckets (today : Int) (emps : List Employee)
    (obs : List Onboarding) :
    chartData today emps obs = (List.range 7).map (fun j =>
      { date := today - 6 + (j : Int)
      , employees := countCreatedOn emps (today - 6 + (j : Int))
      , onboardings := countStartedOn obs (today - 6 + (j : Int)) }) := by
  simp only [chartData]
  rw [foldl_bumpOnboarding, foldl_bumpEmployee, initBuckets, List.map_map, List.map_map]
  apply List.map_congr_left
  intro j _
  simp only [Function.comp]
  show DayBucket.mk (today - (6 - Int.ofNat j))
      (0 + countCreatedOn emps (today - (6 - Int.ofNat j)))
      (0 + countStartedOn obs (today - (6 - Int.ofNat j))) =
    DayBucket.mk (today - 6 + (j : Int))
      (countCreatedOn emps (today - 6 + (j : Int)))
      (countStartedOn obs (today - 6 + (j : Int)))
  rw [show today - (6 - Int.ofNat j) = today - 6 + (j : Int) from by
        rw [show Int.ofNat j = (j : Int) from rfl]; ring,
      Nat.zero_add, Nat.zero_add]

end Onboardly

